import Mathlib

/-! Verification of the key-material subsystem of VanitySearch (main.cpp):
the partial-key reconstruction engine reconstructAdd, the deterministic
key derivation generateKeyPair, the result sink outputAdd and the record
loader parseFile.  External collaborators (curve engine, address codec,
hashing primitives, file system) are modelled from the spec as explicit
parameters. -/

namespace VanityCore

/-- Address types selected by the leading character of a target address
(switch in reconstructAdd, main.cpp:303-315; the P2PKH / P2SH / BECH32
constants come from an external header). -/
inductive AddrType
  | p2pkh
  | p2sh
  | bech32
deriving DecidableEq

/-- Modelled from the spec: the external CurveArithmeticEngine and
AddressCodec (SECP256k1.h is not part of the analyzed source, spec
section 6).  Curve points are represented by opaque natural-number codes;
`pub` is generator scalar multiplication, and `decodePrivateKey` returns a
scalar together with the compression flag, a negative scalar being the
invalid-encoding sentinel. -/
structure Secp where
  pub : ℤ → ℕ
  getAddress : AddrType → Bool → ℕ → String
  getPrivAddress : Bool → ℤ → String
  getBase16 : ℤ → String
  decodePrivateKey : String → ℤ × Bool

/-- Modelled from the spec: the secp256k1 group order n (spec section 6:
a fixed published constant; `secp->order` lives in the external engine). -/
def nOrder : ℤ := 0xFFFFFFFFFFFFFFFFFFFFFFFFFFFFFFFEBAAEDCE6AF48A03BBFD25E8CD0364141

/-- First endomorphism constant lambda, hex literal set in reconstructAdd
(main.cpp:284). -/
def lambdaK1 : ℤ := 0x5363AD4CC05C30E0A5261C028812645A122E22EA20816678DF02967C1B23BD72

/-- Second endomorphism constant lambda squared, hex literal set in
reconstructAdd (main.cpp:285). -/
def lambda2K1 : ℤ := 0xAC9C52B33FA3CF1F5AD9E3FD77ED9BA4A880B9FC8EC739C2E0CFC810B51283CE

/-- The six candidate offsets `e` computed from the known base key in
reconstructAdd (main.cpp:349-382): identity, the two endomorphism images
(ModMulK1order reduces modulo n), and their three symmetric images built
by Neg followed by Add(order). -/
def trialOffsets (k : ℤ) : List ℤ :=
  [k,
   (k * lambdaK1).emod nOrder,
   (k * lambda2K1).emod nOrder,
   nOrder - k,
   nOrder - (k * lambdaK1).emod nOrder,
   nOrder - (k * lambda2K1).emod nOrder]

/-- One sink write: the arguments reconstructAdd passes to outputAdd,
together with the reconstructed scalar `fullPriv` they are derived from
(CHECK_ADDR macro, main.cpp:267-276). -/
structure Emission where
  addrType : AddrType
  addr : String
  fullPriv : ℤ
  pAddr : String
  pAddrHex : String
deriving DecidableEq

/-- One CHECK_ADDR trial (main.cpp:267-276): `fullPriv := (e + partialPrivKey) mod n`
(ModAddK1order), the candidate address of its public point, and an
emission when the candidate equals the target. -/
def runTrial (S : Secp) (compressed : Bool) (addrType : AddrType) (addr : String)
    (partKey : ℤ) (e : ℤ) : Option Emission :=
  let fullPriv := (e + partKey).emod nOrder
  let cAddr := S.getAddress addrType compressed (S.pub fullPriv)
  if cAddr = addr then
    some ⟨addrType, addr, fullPriv, S.getPrivAddress compressed fullPriv,
          S.getBase16 fullPriv⟩
  else none

/-- Diagnostics printed by reconstructAdd, each naming the line index it
reports (the printf calls at main.cpp:312-338 and 385). -/
inductive Diag
  | invalidLineAddr (i : ℕ)
  | unsupportedFormat (i : ℕ) (addr : String)
  | invalidLinePartKey (i : ℕ)
  | invalidPartKey (i : ℕ)
  | wrongCompression (i : ℕ)
  | unresolved (i : ℕ) (addr : String) (ptext : String)
deriving DecidableEq

/-- Outcome of processing one record of the reconstruction loop: either
the loop halts (exit(-1), or an out-of-bounds read of the missing second
line), or it continues with the record's emissions, diagnostics and trial
count. -/
inductive Step
  | halt (fatal : Bool) (oob : Bool) (diags : List Diag)
  | cont (ems : List Emission) (diags : List Diag) (trials : ℕ)
deriving DecidableEq

/-- Observable outcome of a reconstruction run: sink writes in order,
diagnostics in order, whether the run exited fatally, whether it read one
line past the end of the line list, and how many CHECK_ADDR trials ran. -/
structure RunResult where
  emissions : List Emission
  diags : List Diag
  fatal : Bool
  oob : Bool
  trials : ℕ
deriving DecidableEq

/-- The address-type switch of reconstructAdd (main.cpp:303-315) on the
first character of the target address; `none` is the default branch. -/
def addrTypeOfChar : Option Char → Option AddrType
  | some '1' => some AddrType.p2pkh
  | some '3' => some AddrType.p2sh
  | some 'b' => some AddrType.bech32
  | some 'B' => some AddrType.bech32
  | _ => none

/-- The 12 characters compared against `lines[i].substr(0, 12)` (main.cpp:299). -/
def pubTagChars : List Char := "PubAddress: ".data

/-- The 13 characters compared against `lines[i+1].substr(0, 13)` (main.cpp:322). -/
def partTagChars : List Char := "PartialPriv: ".data

/-- The body of one iteration of the reconstruction loop (main.cpp:294-391),
given the known base key, the run's compression flag, the loop index `i`,
line 2i, and line 2i+1 when it exists.  Note the faithful slip at
main.cpp:331: after decoding the partial key the code tests
`privKey.IsNegative()` — the base key — not the partial key. -/
def processRecord (S : Secp) (privKey : ℤ) (compressed : Bool) (i : ℕ)
    (l1 : String) (ol2 : Option String) : Step :=
  if l1.data.take 12 = pubTagChars then
    let addr : String := ⟨l1.data.drop 12⟩
    match addrTypeOfChar addr.data.head? with
    | none => Step.cont [] [Diag.unsupportedFormat i addr] 0
    | some addrType =>
      match ol2 with
      | none => Step.halt false true []
      | some l2 =>
        if l2.data.take 13 = partTagChars then
          let ptext : String := ⟨l2.data.drop 13⟩
          let dp := S.decodePrivateKey ptext
          if privKey < 0 then Step.halt true false [Diag.invalidPartKey i]
          else if dp.2 ≠ compressed then
            Step.cont [] [Diag.wrongCompression i] 0
          else
            let ems := (trialOffsets privKey).filterMap
              (runTrial S compressed addrType addr dp.1)
            Step.cont ems
              (if ems.isEmpty then [Diag.unresolved i addr ptext] else []) 6
        else Step.halt true false [Diag.invalidLinePartKey i]
  else Step.halt true false [Diag.invalidLineAddr i]

/-- The record loop of reconstructAdd (main.cpp:294-391): indices advance
by two; a lone final line means the loop body would read `lines[i+1]` one
past the end unless it halts or skips before that read. -/
def reconLoop (S : Secp) (privKey : ℤ) (compressed : Bool) :
    ℕ → List String → RunResult
  | _, [] => ⟨[], [], false, false, 0⟩
  | i, [l1] =>
    match processRecord S privKey compressed i l1 none with
    | Step.halt f o d => ⟨[], d, f, o, 0⟩
    | Step.cont ems d tr => ⟨ems, d, false, false, tr⟩
  | i, l1 :: l2 :: rest =>
    match processRecord S privKey compressed i l1 (some l2) with
    | Step.halt f o d => ⟨[], d, f, o, 0⟩
    | Step.cont ems d tr =>
      let r := reconLoop S privKey compressed (i + 2) rest
      ⟨ems ++ r.emissions, d ++ r.diags, r.fatal, r.oob, tr + r.trials⟩

/-- reconstructAdd (main.cpp:278-393): decode the known base key (exit(-1)
when the decoded scalar is the negative invalid sentinel, before any
record is read), then run the record loop over the loaded lines.  The
output-file path only affects outputAdd and is modelled there. -/
def reconstructAdd (S : Secp) (privAddr : String) (lines : List String) : RunResult :=
  let dk := S.decodePrivateKey privAddr
  if dk.1 < 0 then ⟨[], [], true, false, 0⟩
  else reconLoop S dk.1 dk.2 0 lines

/-- The character class of C `isspace` used when trimming line ends
(main.cpp:172). -/
def isSpaceByte (c : Char) : Bool :=
  c.toNat = 32 || c.toNat = 9 || c.toNat = 10 || c.toNat = 11 ||
  c.toNat = 12 || c.toNat = 13

/-- Trailing-whitespace strip of one raw line (the pop_back loop,
main.cpp:171-175). -/
def stripTrail (s : String) : String :=
  ⟨(s.data.reverse.dropWhile isSpaceByte).reverse⟩

/-- parseFile (main.cpp:149-191) as a pure transform on the raw lines of
the input file: strip trailing whitespace from each line and keep only the
non-empty results, in order.  File opening and progress printing are
external effects outside this model. -/
def parseFile (raw : List String) : List String :=
  (raw.map stripTrail).filter (fun l => decide (0 < l.length))

/-- Search modes, mirroring the SEARCH_COMPRESSED / SEARCH_UNCOMPRESSED /
SEARCH_BOTH constants of the external header. -/
inductive SearchMode
  | compressed
  | uncompressed
  | both
deriving DecidableEq

/-- Derivation errors of generateKeyPair: seed shorter than 8 characters
(main.cpp:197-201) and the both-modes rejection (main.cpp:206-209). -/
inductive GenErr
  | invalidSeed
  | ambiguousMode
deriving DecidableEq

/-- Events logged in the order generateKeyPair performs its external
operations, used to state that a failing run performs none of them. -/
inductive Op
  | randAppend
  | opPbkdf2
  | opSha256
  | opScalarMult
deriving DecidableEq

/-- Modelled from the spec: the external hashing primitives declared in
hash/sha512.h and hash/sha256.h (spec section 4.1); byte strings are lists
of naturals; `pbkdf2HmacSha512` takes password, salt, iteration count and
output length. -/
structure HashEnv where
  pbkdf2HmacSha512 : String → String → ℕ → ℕ → List ℕ
  sha256 : List ℕ → List ℕ

/-- The 32-byte digest written into the zero-initialised limb array
`privKey.bits64` (main.cpp:220-221), read back as a little-endian integer;
note there is no reduction modulo the curve order anywhere in this path. -/
def scalarOfBytes (bs : List ℕ) : ℤ :=
  (bs.foldr (fun b acc => b + 256 * acc) 0 : ℕ)

/-- generateKeyPair (main.cpp:195-226): seed-length guard first, then the
optional paranoiac append of process randomness (Timer::getSeed(32),
modelled as the explicit `randSeed` argument), then the single-mode guard,
then PBKDF2-HMAC-SHA512 with the fixed literal salt "VanitySearch" and
2048 iterations to a 64-byte intermediate, SHA-256 of that intermediate
taken directly as the private scalar, and generator multiplication.  The
second component logs the external operations performed, in order. -/
def generateKeyPair (H : HashEnv) (S : Secp) (seed : String)
    (searchMode : SearchMode) (paranoiacSeed : Bool) (randSeed : String) :
    Except GenErr (ℤ × ℕ) × List Op :=
  if seed.length < 8 then (Except.error GenErr.invalidSeed, [])
  else
    let seed2 := if paranoiacSeed then seed ++ randSeed else seed
    let ops0 : List Op := if paranoiacSeed then [Op.randAppend] else []
    if searchMode = SearchMode.both then (Except.error GenErr.ambiguousMode, ops0)
    else
      let hseed := H.pbkdf2HmacSha512 seed2 "VanitySearch" 2048 64
      let priv := scalarOfBytes (H.sha256 hseed)
      (Except.ok (priv, S.pub priv),
       ops0 ++ [Op.opPbkdf2, Op.opSha256, Op.opScalarMult])

/-- Output destinations of outputAdd: an append-opened file or the default
output stream (main.cpp:232-243). -/
inductive Dest
  | file (name : String)
  | stdout
deriving DecidableEq

/-- Observable outcome of one outputAdd call: where the record went,
whether the destination was opened for append, whether the open-failure
diagnostic was printed, and the lines written. -/
structure OutRes where
  dest : Dest
  appendMode : Bool
  openDiag : Bool
  written : List String
deriving DecidableEq

/-- The WIF tag chosen by the addrType switch of outputAdd (main.cpp:248-258). -/
def privTag : AddrType → String
  | AddrType.p2pkh => "p2pkh:"
  | AddrType.p2sh => "p2wpkh-p2sh:"
  | AddrType.bech32 => "p2wpkh:"

/-- outputAdd (main.cpp:230-264): when a non-empty output path is given it
is opened in append mode ("a"); on open failure (`openOk = false`, the
file system being external) the record falls back to the default stream
with a diagnostic; the record is always the fixed four-line layout. -/
def outputAdd (outputFile : String) (openOk : Bool) (addrType : AddrType)
    (addr pAddr pAddrHex : String) : OutRes :=
  let d : Dest × Bool × Bool :=
    if 0 < outputFile.length then
      if openOk then (Dest.file outputFile, true, false)
      else (Dest.stdout, false, true)
    else (Dest.stdout, false, false)
  ⟨d.1, d.2.1, d.2.2,
   ["", "Pub Addr: " ++ addr,
    "Priv (WIF): " ++ privTag addrType ++ pAddr,
    "Priv (HEX): 0x" ++ pAddrHex]⟩

/-- Concrete instantiation of the external curve engine and codec, used to
evaluate the theorems on explicit inputs. -/
def toySecp : Secp :=
  ⟨fun z => (z.emod nOrder).toNat,
   fun _ _ _ => "1",
   fun _ _ => "w",
   fun _ => "00",
   fun s =>
     if s = "B" then (5, true)
     else if s = "P" then (7, true)
     else if s = "K0" then (0, true)
     else (-1, true)⟩

/-- Concrete instantiation of the external hashing primitives, used to
evaluate the derivation theorems on explicit inputs. -/
def toyHash : HashEnv := ⟨fun _ _ _ _ => [1, 2], fun _ => [3, 0, 4]⟩

/-! Helper lemmas about strings and the loop structure. -/

theorem data_append (a b : String) : (a ++ b).data = a.data ++ b.data := rfl

theorem data_mk (l : List Char) : (String.mk l).data = l := rfl

theorem string_mk_data (s : String) : (⟨s.data⟩ : String) = s := rfl

theorem take12_pub (addr : String) :
    ("PubAddress: " ++ addr).data.take 12 = pubTagChars := by
  rw [data_append]
  exact List.take_left' (by decide)

theorem drop12_pub (addr : String) :
    ("PubAddress: " ++ addr).data.drop 12 = addr.data := by
  rw [data_append]
  exact List.drop_left' (by decide)

theorem take13_part (p : String) :
    ("PartialPriv: " ++ p).data.take 13 = partTagChars := by
  rw [data_append]
  exact List.take_left' (by decide)

theorem drop13_part (p : String) :
    ("PartialPriv: " ++ p).data.drop 13 = p.data := by
  rw [data_append]
  exact List.drop_left' (by decide)

theorem runTrial_match (S : Secp) (c : Bool) (t : AddrType) (addr : String)
    (pk e : ℤ) (haddr : addr = S.getAddress t c (S.pub ((pk + e).emod nOrder))) :
    runTrial S c t addr pk e =
      some ⟨t, addr, (e + pk).emod nOrder,
        S.getPrivAddress c ((e + pk).emod nOrder),
        S.getBase16 ((e + pk).emod nOrder)⟩ := by
  have h : S.getAddress t c (S.pub ((e + pk).emod nOrder)) = addr := by
    rw [Int.add_comm e pk]; exact haddr.symm
  simp only [runTrial]
  rw [if_pos h]

theorem processRecord_cont (S : Secp) (k : ℤ) (c : Bool) (i : ℕ)
    (addr ptext : String) (pk : ℤ) (t : AddrType)
    (hknn : 0 ≤ k) (hdp : S.decodePrivateKey ptext = (pk, c))
    (ht : addrTypeOfChar addr.data.head? = some t) :
    processRecord S k c i ("PubAddress: " ++ addr) (some ("PartialPriv: " ++ ptext)) =
      Step.cont ((trialOffsets k).filterMap (runTrial S c t addr pk))
        (if ((trialOffsets k).filterMap (runTrial S c t addr pk)).isEmpty
          then [Diag.unresolved i addr ptext] else []) 6 := by
  unfold processRecord
  rw [if_pos (take12_pub addr)]
  simp only [drop12_pub, string_mk_data, ht]
  rw [if_pos (take13_part ptext)]
  simp only [drop13_part, string_mk_data, hdp]
  rw [if_neg (by omega : ¬ k < 0)]
  simp

theorem reconLoop_nil (S : Secp) (k : ℤ) (c : Bool) (i : ℕ) :
    reconLoop S k c i [] = ⟨[], [], false, false, 0⟩ := rfl

theorem reconLoop_cons_cont (S : Secp) (k : ℤ) (c : Bool) (i : ℕ)
    (l1 l2 : String) (rest : List String) (ems : List Emission)
    (d : List Diag) (tr : ℕ)
    (h : processRecord S k c i l1 (some l2) = Step.cont ems d tr) :
    reconLoop S k c i (l1 :: l2 :: rest) =
      ⟨ems ++ (reconLoop S k c (i + 2) rest).emissions,
       d ++ (reconLoop S k c (i + 2) rest).diags,
       (reconLoop S k c (i + 2) rest).fatal,
       (reconLoop S k c (i + 2) rest).oob,
       tr + (reconLoop S k c (i + 2) rest).trials⟩ := by
  show (match processRecord S k c i l1 (some l2) with
    | Step.halt f o d => (⟨[], d, f, o, 0⟩ : RunResult)
    | Step.cont ems d tr =>
      let r := reconLoop S k c (i + 2) rest
      ⟨ems ++ r.emissions, d ++ r.diags, r.fatal, r.oob, tr + r.trials⟩) = _
  rw [h]

theorem reconLoop_cons_halt (S : Secp) (k : ℤ) (c : Bool) (i : ℕ)
    (l1 l2 : String) (rest : List String) (f o : Bool) (d : List Diag)
    (h : processRecord S k c i l1 (some l2) = Step.halt f o d) :
    reconLoop S k c i (l1 :: l2 :: rest) = ⟨[], d, f, o, 0⟩ := by
  show (match processRecord S k c i l1 (some l2) with
    | Step.halt f o d => (⟨[], d, f, o, 0⟩ : RunResult)
    | Step.cont ems d tr =>
      let r := reconLoop S k c (i + 2) rest
      ⟨ems ++ r.emissions, d ++ r.diags, r.fatal, r.oob, tr + r.trials⟩) = _
  rw [h]

theorem reconLoop_single_cont (S : Secp) (k : ℤ) (c : Bool) (i : ℕ)
    (l1 : String) (ems : List Emission) (d : List Diag) (tr : ℕ)
    (h : processRecord S k c i l1 none = Step.cont ems d tr) :
    reconLoop S k c i [l1] = ⟨ems, d, false, false, tr⟩ := by
  show (match processRecord S k c i l1 none with
    | Step.halt f o d => (⟨[], d, f, o, 0⟩ : RunResult)
    | Step.cont ems d tr => ⟨ems, d, false, false, tr⟩) = _
  rw [h]

theorem reconLoop_single_halt (S : Secp) (k : ℤ) (c : Bool) (i : ℕ)
    (l1 : String) (f o : Bool) (d : List Diag)
    (h : processRecord S k c i l1 none = Step.halt f o d) :
    reconLoop S k c i [l1] = ⟨[], d, f, o, 0⟩ := by
  show (match processRecord S k c i l1 none with
    | Step.halt f o d => (⟨[], d, f, o, 0⟩ : RunResult)
    | Step.cont ems d tr => ⟨ems, d, false, false, tr⟩) = _
  rw [h]

theorem processRecord_skip_unsupported (S : Secp) (k : ℤ) (c : Bool) (i : ℕ)
    (addr : String) (ol2 : Option String)
    (hns : addrTypeOfChar addr.data.head? = none) :
    processRecord S k c i ("PubAddress: " ++ addr) ol2 =
      Step.cont [] [Diag.unsupportedFormat i addr] 0 := by
  unfold processRecord
  rw [if_pos (take12_pub addr)]
  simp only [drop12_pub, string_mk_data, hns]

theorem processRecord_halt_addr (S : Secp) (k : ℤ) (c : Bool) (i : ℕ)
    (l1 : String) (ol2 : Option String)
    (h : ¬ l1.data.take 12 = pubTagChars) :
    processRecord S k c i l1 ol2 = Step.halt true false [Diag.invalidLineAddr i] := by
  unfold processRecord
  rw [if_neg h]

theorem processRecord_halt_part (S : Secp) (k : ℤ) (c : Bool) (i : ℕ)
    (addr l2 : String) (t : AddrType)
    (ht : addrTypeOfChar addr.data.head? = some t)
    (h13 : ¬ l2.data.take 13 = partTagChars) :
    processRecord S k c i ("PubAddress: " ++ addr) (some l2) =
      Step.halt true false [Diag.invalidLinePartKey i] := by
  unfold processRecord
  rw [if_pos (take12_pub addr)]
  simp only [drop12_pub, string_mk_data, ht]
  rw [if_neg h13]

theorem processRecord_oob (S : Secp) (k : ℤ) (c : Bool) (i : ℕ)
    (l1 : String) (t : AddrType)
    (h12 : l1.data.take 12 = pubTagChars)
    (ht : addrTypeOfChar (l1.data.drop 12).head? = some t) :
    processRecord S k c i l1 none = Step.halt false true [] := by
  unfold processRecord
  rw [if_pos h12]
  simp only [string_mk_data, ht]

theorem processRecord_some_oob (S : Secp) (k : ℤ) (c : Bool) (i : ℕ)
    (l1 l2 : String) (f o : Bool) (d : List Diag)
    (h : processRecord S k c i l1 (some l2) = Step.halt f o d) : o = false := by
  unfold processRecord at h
  simp only [data_mk] at h
  repeat' split at h
  all_goals first
    | (cases h; rfl)
    | cases h

theorem addrTypeOfChar_eq_none (ch : Char)
    (h1 : ch ≠ '1') (h3 : ch ≠ '3') (hb : ch ≠ 'b') (hB : ch ≠ 'B') :
    addrTypeOfChar (some ch) = none := by
  unfold addrTypeOfChar
  split
  all_goals simp_all

theorem reconLoop_even_oob (S : Secp) (k : ℤ) (c : Bool) :
    ∀ (m : ℕ) (lines : List String) (i : ℕ), lines.length ≤ m →
      lines.length % 2 = 0 → (reconLoop S k c i lines).oob = false := by
  intro m
  induction m with
  | zero =>
    intro lines i hle _
    match lines with
    | [] => rfl
    | l :: ls => simp at hle
  | succ m ih =>
    intro lines i hle hev
    match lines with
    | [] => rfl
    | [l1] => simp at hev
    | l1 :: l2 :: rest =>
      cases h : processRecord S k c i l1 (some l2) with
      | halt f o d =>
        rw [reconLoop_cons_halt S k c i l1 l2 rest f o d h]
        exact processRecord_some_oob S k c i l1 l2 f o d h
      | cont ems d tr =>
        rw [reconLoop_cons_cont S k c i l1 l2 rest ems d tr h]
        refine ih rest (i + 2) ?_ ?_
        · simp at hle; omega
        · simp at hev ⊢; omega

/-! Claim theorems. -/

/-- C1: reconstruction completeness.  For every engine, known base scalar
k (decoded non-negative), partial scalar, and offset e among the six
transforms T1=k, T2=k*lambda mod n, T3=k*lambda^2 mod n, T4=n-k,
T5=n-(k*lambda mod n), T6=n-(k*lambda^2 mod n) (with the exact lambda
constants of main.cpp:284-285), if a single record's target address is the
encoding, for its address type and compression mode, of the public point
of full = (partial + e) mod n, then reconstructAdd neither aborts nor
reports the record unresolved, and emits to the sink a scalar whose
derived address equals the target address. -/
theorem c1_reconstruction_completeness (S : Secp) (privAddr ptext addr : String)
    (k pk e : ℤ) (c : Bool) (t : AddrType)
    (hdk : S.decodePrivateKey privAddr = (k, c)) (hknn : 0 ≤ k)
    (hdp : S.decodePrivateKey ptext = (pk, c))
    (ht : addrTypeOfChar addr.data.head? = some t)
    (he : e ∈ trialOffsets k)
    (haddr : addr = S.getAddress t c (S.pub ((pk + e).emod nOrder))) :
    (reconstructAdd S privAddr
        ["PubAddress: " ++ addr, "PartialPriv: " ++ ptext]).fatal = false ∧
    (reconstructAdd S privAddr
        ["PubAddress: " ++ addr, "PartialPriv: " ++ ptext]).diags = [] ∧
    ∃ em ∈ (reconstructAdd S privAddr
        ["PubAddress: " ++ addr, "PartialPriv: " ++ ptext]).emissions,
      S.getAddress t c (S.pub em.fullPriv) = addr := by
  have hnn : ¬ k < 0 := by omega
  have hra : reconstructAdd S privAddr
      ["PubAddress: " ++ addr, "PartialPriv: " ++ ptext] =
      reconLoop S k c 0 ["PubAddress: " ++ addr, "PartialPriv: " ++ ptext] := by
    simp only [reconstructAdd, hdk]
    rw [if_neg hnn]
  set ems := (trialOffsets k).filterMap (runTrial S c t addr pk) with hems
  have hm : (⟨t, addr, (e + pk).emod nOrder,
      S.getPrivAddress c ((e + pk).emod nOrder),
      S.getBase16 ((e + pk).emod nOrder)⟩ : Emission) ∈ ems := by
    rw [hems]
    exact List.mem_filterMap.mpr ⟨e, he, runTrial_match S c t addr pk e haddr⟩
  have hne : ems.isEmpty = false := by
    cases h : ems.isEmpty
    · rfl
    · exact absurd (List.isEmpty_iff.mp h ▸ hm) (List.not_mem_nil _)
  have hloop : reconLoop S k c 0 ["PubAddress: " ++ addr, "PartialPriv: " ++ ptext] =
      ⟨ems ++ [], (if ems.isEmpty then [Diag.unresolved 0 addr ptext] else []) ++ [],
       false, false, 6 + 0⟩ := by
    show (match processRecord S k c 0 ("PubAddress: " ++ addr)
        (some ("PartialPriv: " ++ ptext)) with
      | Step.halt f o d => (⟨[], d, f, o, 0⟩ : RunResult)
      | Step.cont ems2 d tr =>
        let r := reconLoop S k c (0 + 2) []
        ⟨ems2 ++ r.emissions, d ++ r.diags, r.fatal, r.oob, tr + r.trials⟩) = _
    rw [processRecord_cont S k c 0 addr ptext pk t hknn hdp ht]
    rfl
  rw [hra, hloop]
  refine ⟨rfl, ?_, ?_⟩
  · simp [hne]
  · exact ⟨_, by simpa using hm, by
      show S.getAddress t c (S.pub ((e + pk).emod nOrder)) = addr
      rw [Int.add_comm e pk]; exact haddr.symm⟩

/-- Witness for C1, on the concrete engine toySecp with base key text "B"
(decoding to 5), partial text "P" (decoding to 7) and offset e = 5 = T1(5). -/
theorem c1_reconstruction_completeness_witness :
    (reconstructAdd toySecp "B"
        ["PubAddress: " ++ "1", "PartialPriv: " ++ "P"]).fatal = false ∧
    (reconstructAdd toySecp "B"
        ["PubAddress: " ++ "1", "PartialPriv: " ++ "P"]).diags = [] ∧
    ∃ em ∈ (reconstructAdd toySecp "B"
        ["PubAddress: " ++ "1", "PartialPriv: " ++ "P"]).emissions,
      toySecp.getAddress AddrType.p2pkh true (toySecp.pub em.fullPriv) = "1" :=
  c1_reconstruction_completeness toySecp "B" "P" "1" 5 7 5 true AddrType.p2pkh
    (by decide) (by decide) (by decide) (by decide) (by decide) (by decide)

/-- C2 counterexample: the claim that at most one transform is tried and
exactly one sink emission occurs per matching record is false.  With base
key text "K0" decoding to the scalar 0, all six transforms produce the
same full key (partial + 0 mod n), hence the same candidate address, and
the record causes six sink emissions, not one. -/
theorem c2_counterexample :
    (reconstructAdd toySecp "K0" ["PubAddress: 1", "PartialPriv: P"]).trials = 6 ∧
    (reconstructAdd toySecp "K0" ["PubAddress: 1", "PartialPriv: P"]).emissions.length = 6 ∧
    ¬ (reconstructAdd toySecp "K0" ["PubAddress: 1", "PartialPriv: P"]).emissions.length = 1 := by
  decide

/-- C2 amended: there is no short-circuit.  Every record that reaches the
trial stage has all six transforms evaluated (trial count 6) regardless of
matches, and the sink receives exactly one emission per matching transform,
in transform order; subsequent records are processed independently. -/
theorem c2_all_transforms_tried (S : Secp) (k : ℤ) (c : Bool) (i : ℕ)
    (addr ptext : String) (pk : ℤ) (t : AddrType) (rest : List String)
    (hknn : 0 ≤ k) (hdp : S.decodePrivateKey ptext = (pk, c))
    (ht : addrTypeOfChar addr.data.head? = some t) :
    reconLoop S k c i (("PubAddress: " ++ addr) :: ("PartialPriv: " ++ ptext) :: rest) =
      ⟨(trialOffsets k).filterMap (runTrial S c t addr pk) ++
         (reconLoop S k c (i + 2) rest).emissions,
       (if ((trialOffsets k).filterMap (runTrial S c t addr pk)).isEmpty
         then [Diag.unresolved i addr ptext] else []) ++
         (reconLoop S k c (i + 2) rest).diags,
       (reconLoop S k c (i + 2) rest).fatal,
       (reconLoop S k c (i + 2) rest).oob,
       6 + (reconLoop S k c (i + 2) rest).trials⟩ :=
  reconLoop_cons_cont S k c i _ _ rest _ _ 6
    (processRecord_cont S k c i addr ptext pk t hknn hdp ht)

/-- Witness for the amended C2 on concrete inputs. -/
theorem c2_all_transforms_tried_witness :
    reconLoop toySecp 5 true 0
        (("PubAddress: " ++ "1") :: ("PartialPriv: " ++ "P") :: []) =
      ⟨(trialOffsets 5).filterMap (runTrial toySecp true AddrType.p2pkh "1" 7) ++
         (reconLoop toySecp 5 true (0 + 2) []).emissions,
       (if ((trialOffsets 5).filterMap
            (runTrial toySecp true AddrType.p2pkh "1" 7)).isEmpty
         then [Diag.unresolved 0 "1" "P"] else []) ++
         (reconLoop toySecp 5 true (0 + 2) []).diags,
       (reconLoop toySecp 5 true (0 + 2) []).fatal,
       (reconLoop toySecp 5 true (0 + 2) []).oob,
       6 + (reconLoop toySecp 5 true (0 + 2) []).trials⟩ :=
  c2_all_transforms_tried toySecp 5 true 0 "1" "P" 7 AddrType.p2pkh []
    (by decide) (by decide) (by decide)

/-- C3 counterexample: the claim that a record whose partial private-key
text decodes to the invalid (negative) sentinel is skipped with a
diagnostic is false.  With base key "B" (decoding to 5) and partial text
"NEG" (decoding to the sentinel -1), the run is not aborted, no diagnostic
is printed, and the record is not skipped: all six transforms are tried
with the invalid scalar. -/
theorem c3_counterexample :
    (reconstructAdd toySecp "B" ["PubAddress: 1", "PartialPriv: NEG"]).fatal = false ∧
    (reconstructAdd toySecp "B" ["PubAddress: 1", "PartialPriv: NEG"]).trials = 6 ∧
    (reconstructAdd toySecp "B" ["PubAddress: 1", "PartialPriv: NEG"]).diags = [] := by
  decide

/-- C3 amended: a negative known base key aborts the run before any record
is processed (no emissions, no diagnostics, no trials); but a per-record
partial key that decodes to the negative sentinel is not detected, because
the guard at main.cpp:331 re-tests the base key (already non-negative at
that point): the record proceeds through all six transforms with the
invalid scalar and subsequent records are processed as usual. -/
theorem c3_invalid_encoding_severity :
    (∀ (S : Secp) (privAddr : String) (lines : List String) (k : ℤ) (c : Bool),
      S.decodePrivateKey privAddr = (k, c) → k < 0 →
      reconstructAdd S privAddr lines = ⟨[], [], true, false, 0⟩) ∧
    (∀ (S : Secp) (k : ℤ) (c : Bool) (i : ℕ) (addr ptext : String) (pk : ℤ)
        (t : AddrType) (rest : List String),
      0 ≤ k → S.decodePrivateKey ptext = (pk, c) → pk < 0 →
      addrTypeOfChar addr.data.head? = some t →
      reconLoop S k c i (("PubAddress: " ++ addr) :: ("PartialPriv: " ++ ptext) :: rest) =
        ⟨(trialOffsets k).filterMap (runTrial S c t addr pk) ++
           (reconLoop S k c (i + 2) rest).emissions,
         (if ((trialOffsets k).filterMap (runTrial S c t addr pk)).isEmpty
           then [Diag.unresolved i addr ptext] else []) ++
           (reconLoop S k c (i + 2) rest).diags,
         (reconLoop S k c (i + 2) rest).fatal,
         (reconLoop S k c (i + 2) rest).oob,
         6 + (reconLoop S k c (i + 2) rest).trials⟩) := by
  constructor
  · intro S privAddr lines k c hdk hneg
    have hd : reconstructAdd S privAddr lines =
        if (S.decodePrivateKey privAddr).1 < 0 then ⟨[], [], true, false, 0⟩
        else reconLoop S (S.decodePrivateKey privAddr).1
          (S.decodePrivateKey privAddr).2 0 lines := rfl
    rw [hd, hdk]
    exact if_pos hneg
  · intro S k c i addr ptext pk t rest hknn hdp hpk ht
    exact reconLoop_cons_cont S k c i _ _ rest _ _ 6
      (processRecord_cont S k c i addr ptext pk t hknn hdp ht)

/-- Witness for the amended C3: base key text "X" decodes to the sentinel
-1 and aborts the run; partial text "NEG" decodes to the sentinel -1 yet
the record runs all six transforms. -/
theorem c3_invalid_encoding_severity_witness :
    reconstructAdd toySecp "X" ["PubAddress: 1", "PartialPriv: P"] =
      ⟨[], [], true, false, 0⟩ ∧
    reconLoop toySecp 5 true 0
        (("PubAddress: " ++ "1") :: ("PartialPriv: " ++ "NEG") :: []) =
      ⟨(trialOffsets 5).filterMap (runTrial toySecp true AddrType.p2pkh "1" (-1)) ++
         (reconLoop toySecp 5 true (0 + 2) []).emissions,
       (if ((trialOffsets 5).filterMap
            (runTrial toySecp true AddrType.p2pkh "1" (-1))).isEmpty
         then [Diag.unresolved 0 "1" "NEG"] else []) ++
         (reconLoop toySecp 5 true (0 + 2) []).diags,
       (reconLoop toySecp 5 true (0 + 2) []).fatal,
       (reconLoop toySecp 5 true (0 + 2) []).oob,
       6 + (reconLoop toySecp 5 true (0 + 2) []).trials⟩ :=
  ⟨c3_invalid_encoding_severity.1 toySecp "X" ["PubAddress: 1", "PartialPriv: P"]
     (-1) true (by decide) (by decide),
   c3_invalid_encoding_severity.2 toySecp 5 true 0 "1" "NEG" (-1) AddrType.p2pkh []
     (by decide) (by decide) (by decide) (by decide)⟩

/-- C4: derivation algorithm.  For every seed of length at least 8 with a
single compression mode selected, generateKeyPair appends the process
randomness only when paranoiac, runs PBKDF2-HMAC-SHA512 over the resulting
seed with the fixed literal salt "VanitySearch" and 2048 iterations to a
64-byte intermediate, hashes that intermediate with SHA-256, uses the
digest directly as the private scalar without reduction modulo the curve
order, and derives the public point by generator multiplication; the
operation log records exactly these steps in order. -/
theorem c4_derivation_algorithm (H : HashEnv) (S : Secp) (seed : String)
    (searchMode : SearchMode) (paranoiacSeed : Bool) (randSeed : String)
    (h8 : 8 ≤ seed.length) (hmode : searchMode ≠ SearchMode.both) :
    generateKeyPair H S seed searchMode paranoiacSeed randSeed =
      (Except.ok
        (scalarOfBytes (H.sha256 (H.pbkdf2HmacSha512
            (if paranoiacSeed then seed ++ randSeed else seed) "VanitySearch" 2048 64)),
         S.pub (scalarOfBytes (H.sha256 (H.pbkdf2HmacSha512
            (if paranoiacSeed then seed ++ randSeed else seed) "VanitySearch" 2048 64)))),
       (if paranoiacSeed then [Op.randAppend] else []) ++
         [Op.opPbkdf2, Op.opSha256, Op.opScalarMult]) := by
  have h1 : ¬ seed.length < 8 := by omega
  simp only [generateKeyPair, if_neg h1, if_neg hmode]

/-- Witness for C4 on the concrete hashing environment toyHash. -/
theorem c4_derivation_algorithm_witness :
    generateKeyPair toyHash toySecp "abcdefgh" SearchMode.compressed true "r" =
      (Except.ok
        (scalarOfBytes (toyHash.sha256 (toyHash.pbkdf2HmacSha512
            (if true then "abcdefgh" ++ "r" else "abcdefgh") "VanitySearch" 2048 64)),
         toySecp.pub (scalarOfBytes (toyHash.sha256 (toyHash.pbkdf2HmacSha512
            (if true then "abcdefgh" ++ "r" else "abcdefgh") "VanitySearch" 2048 64)))),
       (if true then [Op.randAppend] else []) ++
         [Op.opPbkdf2, Op.opSha256, Op.opScalarMult]) :=
  c4_derivation_algorithm toyHash toySecp "abcdefgh" SearchMode.compressed true "r"
    (by decide) (by decide)

/-- C5: short-seed rejection.  For every seed shorter than 8 characters,
generateKeyPair fails with InvalidSeed and performs no operations at all
(empty operation log: no randomness append, no PBKDF2, no SHA-256, no
scalar multiplication), regardless of the search mode and paranoiac flag. -/
theorem c5_short_seed_rejection (H : HashEnv) (S : Secp) (seed : String)
    (searchMode : SearchMode) (paranoiacSeed : Bool) (randSeed : String)
    (h : seed.length < 8) :
    generateKeyPair H S seed searchMode paranoiacSeed randSeed =
      (Except.error GenErr.invalidSeed, []) := by
  simp only [generateKeyPair, if_pos h]

/-- Witness for C5 on a 3-character seed, with both modes requested and
the paranoiac flag set. -/
theorem c5_short_seed_rejection_witness :
    generateKeyPair toyHash toySecp "abc" SearchMode.both true "r" =
      (Except.error GenErr.invalidSeed, []) :=
  c5_short_seed_rejection toyHash toySecp "abc" SearchMode.both true "r" (by decide)

/-- C6: unsupported address first character.  For every record whose
target address starts with a character other than '1', '3', 'b', 'B', the
loop emits the unsupported-format diagnostic, runs none of the six
transforms for that record, does not terminate, and processes all
subsequent records exactly as it would have: the whole run equals the run
on the remaining lines, with the diagnostic prepended. -/
theorem c6_unsupported_skip (S : Secp) (k : ℤ) (c : Bool) (i : ℕ)
    (addr : String) (ch : Char) (rest : List String)
    (hch : addr.data.head? = some ch)
    (h1 : ch ≠ '1') (h3 : ch ≠ '3') (hb : ch ≠ 'b') (hB : ch ≠ 'B') :
    reconLoop S k c i (("PubAddress: " ++ addr) :: rest) =
      ⟨(reconLoop S k c (i + 2) (rest.drop 1)).emissions,
       Diag.unsupportedFormat i addr :: (reconLoop S k c (i + 2) (rest.drop 1)).diags,
       (reconLoop S k c (i + 2) (rest.drop 1)).fatal,
       (reconLoop S k c (i + 2) (rest.drop 1)).oob,
       (reconLoop S k c (i + 2) (rest.drop 1)).trials⟩ := by
  have hns : addrTypeOfChar addr.data.head? = none := by
    rw [hch]; exact addrTypeOfChar_eq_none ch h1 h3 hb hB
  cases rest with
  | nil =>
    rw [reconLoop_single_cont S k c i _ [] [Diag.unsupportedFormat i addr] 0
      (processRecord_skip_unsupported S k c i addr none hns)]
    simp [reconLoop_nil]
  | cons l2 rest2 =>
    rw [reconLoop_cons_cont S k c i _ l2 rest2 [] [Diag.unsupportedFormat i addr] 0
      (processRecord_skip_unsupported S k c i addr (some l2) hns)]
    simp

/-- Witness for C6: a 'Z' address is skipped with a diagnostic and the
following record is still processed. -/
theorem c6_unsupported_skip_witness :
    reconLoop toySecp 5 true 0
        (("PubAddress: " ++ "Z") :: ["ignored", "PubAddress: 1", "PartialPriv: P"]) =
      ⟨(reconLoop toySecp 5 true (0 + 2)
          (["ignored", "PubAddress: 1", "PartialPriv: P"].drop 1)).emissions,
       Diag.unsupportedFormat 0 "Z" ::
         (reconLoop toySecp 5 true (0 + 2)
           (["ignored", "PubAddress: 1", "PartialPriv: P"].drop 1)).diags,
       (reconLoop toySecp 5 true (0 + 2)
         (["ignored", "PubAddress: 1", "PartialPriv: P"].drop 1)).fatal,
       (reconLoop toySecp 5 true (0 + 2)
         (["ignored", "PubAddress: 1", "PartialPriv: P"].drop 1)).oob,
       (reconLoop toySecp 5 true (0 + 2)
         (["ignored", "PubAddress: 1", "PartialPriv: P"].drop 1)).trials⟩ :=
  c6_unsupported_skip toySecp 5 true 0 "Z" 'Z'
    ["ignored", "PubAddress: 1", "PartialPriv: P"]
    (by decide) (by decide) (by decide) (by decide) (by decide)

/-- C7 counterexample: the claim that a line 2i+1 without the exact
"PartialPriv: " start always terminates the run is false.  When line 2i
carries an unsupported address first character, line 2i+1 is never
examined: here it is "nonsense", yet the run ends without a fatal exit,
with only the unsupported-format diagnostic. -/
theorem c7_counterexample :
    ¬ ("nonsense".data.take 13 = partTagChars) ∧
    (reconstructAdd toySecp "B" ["PubAddress: Z", "nonsense"]).fatal = false ∧
    (reconstructAdd toySecp "B" ["PubAddress: Z", "nonsense"]).diags =
      [Diag.unsupportedFormat 0 "Z"] := by
  decide

/-- C7 amended: a line 2i that does not start with "PubAddress: "
terminates the run immediately with a diagnostic naming the line and no
later record is processed; a line 2i+1 that does not start with
"PartialPriv: " likewise terminates the run, provided line 2i starts with
"PubAddress: " and carries a supported address first character (otherwise
the record is skipped before line 2i+1 is examined). -/
theorem c7_malformed_tags_fatal :
    (∀ (S : Secp) (k : ℤ) (c : Bool) (i : ℕ) (l1 : String) (rest : List String),
      ¬ l1.data.take 12 = pubTagChars →
      reconLoop S k c i (l1 :: rest) =
        ⟨[], [Diag.invalidLineAddr i], true, false, 0⟩) ∧
    (∀ (S : Secp) (k : ℤ) (c : Bool) (i : ℕ) (addr l2 : String)
        (t : AddrType) (rest : List String),
      addrTypeOfChar addr.data.head? = some t →
      ¬ l2.data.take 13 = partTagChars →
      reconLoop S k c i (("PubAddress: " ++ addr) :: l2 :: rest) =
        ⟨[], [Diag.invalidLinePartKey i], true, false, 0⟩) := by
  constructor
  · intro S k c i l1 rest h12
    cases rest with
    | nil =>
      exact reconLoop_single_halt S k c i l1 true false [Diag.invalidLineAddr i]
        (processRecord_halt_addr S k c i l1 none h12)
    | cons l2 rest2 =>
      exact reconLoop_cons_halt S k c i l1 l2 rest2 true false [Diag.invalidLineAddr i]
        (processRecord_halt_addr S k c i l1 (some l2) h12)
  · intro S k c i addr l2 t rest ht h13
    exact reconLoop_cons_halt S k c i _ l2 rest true false [Diag.invalidLinePartKey i]
      (processRecord_halt_part S k c i addr l2 t ht h13)

/-- Witness for the amended C7: a first line without the address tag is
fatal; a supported address line followed by a line without the partial tag
is fatal. -/
theorem c7_malformed_tags_fatal_witness :
    reconLoop toySecp 5 true 0 ["garbage"] =
      ⟨[], [Diag.invalidLineAddr 0], true, false, 0⟩ ∧
    reconLoop toySecp 5 true 0 (("PubAddress: " ++ "1") :: "oops" :: []) =
      ⟨[], [Diag.invalidLinePartKey 0], true, false, 0⟩ :=
  ⟨c7_malformed_tags_fatal.1 toySecp 5 true 0 "garbage" [] (by decide),
   c7_malformed_tags_fatal.2 toySecp 5 true 0 "1" "oops" AddrType.p2pkh []
     (by decide) (by decide)⟩

/-- C8: the result sink.  For every emission, when a destination path is
given and opens, the record goes to that file in append mode; when it is
given and fails to open, the record goes to the default stream with a
diagnostic; and in every case the record written is, in order: a blank
line, the public address, the private key text tagged by address type
(p2pkh:, p2wpkh-p2sh:, p2wpkh:), and the private key in hexadecimal. -/
theorem c8_result_sink (outputFile : String) (openOk : Bool) (t : AddrType)
    (addr pAddr pAddrHex : String) :
    ((0 < outputFile.length ∧ openOk = true) →
      (outputAdd outputFile openOk t addr pAddr pAddrHex).dest = Dest.file outputFile ∧
      (outputAdd outputFile openOk t addr pAddr pAddrHex).appendMode = true) ∧
    ((0 < outputFile.length ∧ openOk = false) →
      (outputAdd outputFile openOk t addr pAddr pAddrHex).dest = Dest.stdout ∧
      (outputAdd outputFile openOk t addr pAddr pAddrHex).openDiag = true) ∧
    (outputAdd outputFile openOk t addr pAddr pAddrHex).written =
      ["", "Pub Addr: " ++ addr,
       "Priv (WIF): " ++ privTag t ++ pAddr,
       "Priv (HEX): 0x" ++ pAddrHex] := by
  refine ⟨?_, ?_, rfl⟩
  · rintro ⟨h1, h2⟩
    subst h2
    simp only [outputAdd, if_pos h1, if_pos rfl]
    exact ⟨rfl, rfl⟩
  · rintro ⟨h1, h2⟩
    subst h2
    simp only [outputAdd, if_pos h1]
    exact ⟨rfl, rfl⟩

/-- Witness for C8 at a concrete destination, covering the successful open,
the failing open, and the fixed layout. -/
theorem c8_result_sink_witness :
    ((outputAdd "out.txt" true AddrType.p2pkh "1A" "wif" "beef").dest =
        Dest.file "out.txt" ∧
      (outputAdd "out.txt" true AddrType.p2pkh "1A" "wif" "beef").appendMode = true) ∧
    ((outputAdd "out.txt" false AddrType.p2pkh "1A" "wif" "beef").dest = Dest.stdout ∧
      (outputAdd "out.txt" false AddrType.p2pkh "1A" "wif" "beef").openDiag = true) ∧
    (outputAdd "out.txt" true AddrType.p2pkh "1A" "wif" "beef").written =
      ["", "Pub Addr: " ++ "1A",
       "Priv (WIF): " ++ privTag AddrType.p2pkh ++ "wif",
       "Priv (HEX): 0x" ++ "beef"] :=
  ⟨(c8_result_sink "out.txt" true AddrType.p2pkh "1A" "wif" "beef").1
     ⟨by decide, rfl⟩,
   (c8_result_sink "out.txt" false AddrType.p2pkh "1A" "wif" "beef").2.1
     ⟨by decide, rfl⟩,
   (c8_result_sink "out.txt" true AddrType.p2pkh "1A" "wif" "beef").2.2⟩

/-- C9: derivation determinism.  For every seed of length at least 8 with
the paranoiac flag off, two invocations of generateKeyPair with the same
seed and mode but arbitrary (different) ambient randomness produce
identical results, private scalar and public point included. -/
theorem c9_derivation_determinism (H : HashEnv) (S : Secp) (seed : String)
    (searchMode : SearchMode) (r1 r2 : String) (h8 : 8 ≤ seed.length) :
    generateKeyPair H S seed searchMode false r1 =
      generateKeyPair H S seed searchMode false r2 := rfl

/-- Witness for C9 at a concrete seed and two distinct randomness values. -/
theorem c9_derivation_determinism_witness :
    generateKeyPair toyHash toySecp "abcdefgh" SearchMode.compressed false "r1" =
      generateKeyPair toyHash toySecp "abcdefgh" SearchMode.compressed false "r2" :=
  c9_derivation_determinism toyHash toySecp "abcdefgh" SearchMode.compressed "r1" "r2"
    (by decide)

/-- C10 counterexample: the claimed equivalence (all line accesses in
bounds if and only if the trimmed non-empty line count is even) is false
in the only-if direction: this input file has an odd number of trimmed
non-empty lines, yet the run performs no out-of-bounds access, because the
final lone line is skipped at the unsupported-address check before the
read of line 2i+1. -/
theorem c10_counterexample :
    (parseFile ["PubAddress: Z"]).length % 2 = 1 ∧
    (reconstructAdd toySecp "B" (parseFile ["PubAddress: Z"])).oob = false := by
  decide

/-- C10 amended: an even count of trimmed non-empty lines guarantees every
line access of the record loop is in bounds; with an odd count, the run
reads one line past the end exactly when it reaches the partial-key read
of the final lone line, namely when that line starts with "PubAddress: "
followed by a supported address character (and no earlier record halted
the run). -/
theorem c10_line_parity :
    (∀ (S : Secp) (privAddr : String) (lines : List String),
      lines.length % 2 = 0 → (reconstructAdd S privAddr lines).oob = false) ∧
    (∀ (S : Secp) (k : ℤ) (c : Bool) (i : ℕ) (l1 : String) (t : AddrType),
      l1.data.take 12 = pubTagChars →
      addrTypeOfChar (l1.data.drop 12).head? = some t →
      (reconLoop S k c i [l1]).oob = true) := by
  constructor
  · intro S privAddr lines hev
    have he : reconstructAdd S privAddr lines =
        if (S.decodePrivateKey privAddr).1 < 0 then ⟨[], [], true, false, 0⟩
        else reconLoop S (S.decodePrivateKey privAddr).1
          (S.decodePrivateKey privAddr).2 0 lines := rfl
    rw [he]
    by_cases h : (S.decodePrivateKey privAddr).1 < 0
    · rw [if_pos h]
    · rw [if_neg h]
      exact reconLoop_even_oob S _ _ lines.length lines 0 le_rfl hev
  · intro S k c i l1 t h12 ht
    rw [reconLoop_single_halt S k c i l1 false true []
      (processRecord_oob S k c i l1 t h12 ht)]

/-- Witness for the amended C10: the empty file is safe, and a lone
well-formed address line overruns. -/
theorem c10_line_parity_witness :
    (reconstructAdd toySecp "B" []).oob = false ∧
    (reconLoop toySecp 5 true 0 ["PubAddress: 1"]).oob = true :=
  ⟨c10_line_parity.1 toySecp "B" [] (by decide),
   c10_line_parity.2 toySecp 5 true 0 "PubAddress: 1" AddrType.p2pkh
     (by decide) (by decide)⟩

end VanityCore
